import Mathlib

/-!
Shallow embedding of the solana_test repository.

The repository has three binaries and one on-chain program:
  * src/src/blocks/main.rs — stream dispatcher: subscribes to a feed of
    block-metadata updates, and for every update whose slot satisfies
    `slot % 10 == 5` spawns an independent transfer task.
  * src/src/send/main.rs — batch fan-out sender: fetches one recent
    blockhash, spawns one transfer task per configured pair, joins all,
    sorts outcomes by duration descending.
  * src/src/balance/main.rs — balance fan-out (out of scope for the claims).
  * src/deposit_contract.rs — Anchor program with initialize / deposit /
    withdraw over a per-user vault account.

Network effects (blockhash fetches, send_and_confirm results, elapsed
durations) are modelled as oracle functions supplied as arguments; the
embedded code is the deterministic part of each binary.
-/

namespace SolanaTest

/-! ### Common data model -/

/-- Parsed blockhash (solana_sdk::hash::Hash), represented by its textual form. -/
abbrev Hash := String

/-- Public key, kept opaque. -/
abbrev Pubkey := Nat

/-- The fields of a yellowstone SubscribeUpdateBlockMeta that the dispatcher
reads: slot and the (still textual) blockhash. -/
structure BlockMeta where
  slot : Nat
  blockhash : String
deriving DecidableEq

/-- The update kinds of a SubscribeUpdate; the dispatcher only matches
BlockMeta and ignores every other kind. -/
inductive UpdateOneof
  | blockMeta (b : BlockMeta)
  | other
deriving DecidableEq

/-- A SubscribeUpdate message: an optional update_oneof payload. -/
structure SubscribeUpdate where
  update_oneof : Option UpdateOneof
deriving DecidableEq

/-- One item yielded by the feed: Ok(msg) or a stream-level error
(tonic Status), as matched in the while-let loop of blocks/main.rs. -/
inductive FeedItem
  | ok (msg : SubscribeUpdate)
  | err (e : String)
deriving DecidableEq

/-- A signed single-instruction transfer transaction, as built by
Transaction::new_signed_with_payer over system_instruction::transfer. -/
structure Transaction where
  source : Pubkey
  dest : Pubkey
  lamports : Nat
  payer : Pubkey
  recent_blockhash : Hash
deriving DecidableEq

/-! ### Stream dispatcher (src/src/blocks/main.rs) -/

/-- The trigger predicate of the dispatch loop: blocks/main.rs line 113,
`if block.slot % 10 == 5` (named should_dispatch in the specification). -/
def should_dispatch (b : BlockMeta) : Bool :=
  b.slot % 10 == 5

/-- How the coordinator's loop ended:
  * finished — the feed was exhausted, main returns Ok;
  * stoppedStreamError — a stream-level error was logged and the loop broke
    (terminal Stopped state), main still returns Ok;
  * parseFailure — a triggering block's blockhash failed to parse, the `?`
    operator aborted main with Err. -/
inductive LoopExit
  | finished
  | stoppedStreamError (e : String)
  | parseFailure (blockhash : String)
deriving DecidableEq

/-- Observable result of running the dispatch loop of blocks/main.rs:
the dispatched (event, parsed hash) pairs in initiation order, the number
of predicate evaluations performed, and how the loop ended. -/
structure LoopResult where
  dispatches : List (BlockMeta × Hash)
  evals : Nat
  status : LoopExit
deriving DecidableEq

/-- The while-let loop of blocks/main.rs (lines 106-123), run over a list of
feed items. `parse` models `block.blockhash.parse()` (a solana-sdk library
call): on Err the loop breaks after logging; on a BlockMeta update the
predicate is evaluated and, when true, the blockhash is parsed (a parse
failure aborts main via `?`) and a transfer task is spawned. -/
def runLoop (parse : String → Option Hash) : List FeedItem → LoopResult
  | [] => ⟨[], 0, .finished⟩
  | .err e :: _ => ⟨[], 0, .stoppedStreamError e⟩
  | .ok ⟨none⟩ :: rest => runLoop parse rest
  | .ok ⟨some .other⟩ :: rest => runLoop parse rest
  | .ok ⟨some (.blockMeta block)⟩ :: rest =>
    if should_dispatch block then
      match parse block.blockhash with
      | none => ⟨[], 1, .parseFailure block.blockhash⟩
      | some h =>
        let r := runLoop parse rest
        ⟨(block, h) :: r.dispatches, r.evals + 1, r.status⟩
    else
      let r := runLoop parse rest
      ⟨r.dispatches, r.evals + 1, r.status⟩

deriving instance DecidableEq for Except

/-- Result of one spawned transfer task of blocks/main.rs (lines 74-104):
either the per-invocation get_latest_blockhash failed (logged, early
return, nothing sent), or a transaction was built and handed to
send_and_confirm_transaction with the given result. -/
inductive TransferResult
  | fetchFailed (e : String)
  | sent (tx : Transaction) (r : Except String String)
deriving DecidableEq

/-- The `transfer` closure of blocks/main.rs: fetches a fresh recent
blockhash (oracle `fetch`); on failure it only logs and returns; otherwise
it signs a transfer of `lamports` from `sender` to `recipient` using the
freshly fetched hash — NOT the triggering block's hash `blockhash`, which
the source deliberately leaves unused for construction — and submits it
(oracle `send`). -/
def transfer (sender recipient : Pubkey) (lamports : Nat)
    (fetch : Except String Hash) (send : Transaction → Except String String)
    (blockhash : Hash) : TransferResult :=
  match fetch with
  | .error e => .fetchFailed e
  | .ok recent_blockhash =>
    let tx : Transaction :=
      ⟨sender, recipient, lamports, sender, recent_blockhash⟩
    .sent tx (send tx)

/-- Outcomes of the spawned transfer tasks, one per dispatch, where the k-th
spawned task sees the k-th fetch and send oracles. -/
def spawnOutcomes (sender recipient : Pubkey) (lamports : Nat)
    (fetchAt : Nat → Except String Hash)
    (sendAt : Nat → Transaction → Except String String) :
    Nat → List (BlockMeta × Hash) → List TransferResult
  | _, [] => []
  | k, d :: ds =>
    transfer sender recipient lamports (fetchAt k) (sendAt k) d.2
      :: spawnOutcomes sender recipient lamports fetchAt sendAt (k + 1) ds

/-- The whole stream binary: the dispatch loop plus the outcomes of the
tasks it spawned. The loop result is computed first and never consults the
spawned tasks' outcomes (fire and forget). -/
def runSystem (parse : String → Option Hash)
    (fetchAt : Nat → Except String Hash)
    (sendAt : Nat → Transaction → Except String String)
    (sender recipient : Pubkey) (lamports : Nat)
    (items : List FeedItem) : LoopResult × List TransferResult :=
  let r := runLoop parse items
  (r, spawnOutcomes sender recipient lamports fetchAt sendAt 0 r.dispatches)

/-- A feed item carrying one block-metadata event. -/
def okBlock (b : BlockMeta) : FeedItem :=
  .ok ⟨some (.blockMeta b)⟩

/-! ### Batch fan-out sender (src/src/send/main.rs) -/

/-- A parsed transfer pair of send/main.rs: the sender keypair is modelled
by its public key (signing is abstract), plus recipient and lamports. -/
structure TransferPair where
  sender_pubkey : Pubkey
  recipient : Pubkey
  lamports : Nat
deriving DecidableEq

/-- What one spawned batch task returns in send/main.rs (lines 81-101):
`(pair.sender_keypair.pubkey(), duration, signature)`. -/
structure TaskResult where
  sender : Pubkey
  duration : Nat
  signature : Except String String
deriving DecidableEq

/-- The transaction built inside a batch task: a transfer from the pair's
sender to its recipient, paid and signed by the sender, using the single
recent blockhash fetched up front. -/
def mkTx (p : TransferPair) (recent : Hash) : Transaction :=
  ⟨p.sender_pubkey, p.recipient, p.lamports, p.sender_pubkey, recent⟩

/-- One batch task: builds its transaction with the shared `recent` hash and
consults the network oracle `net` (elapsed duration and
send_and_confirm_transaction result for task index `k`). -/
def taskResult (net : Nat → Transaction → Nat × Except String String)
    (recent : Hash) (k : Nat) (p : TransferPair) : TaskResult :=
  let r := net k (mkTx p recent)
  ⟨p.sender_pubkey, r.1, r.2⟩

/-- The spawn-then-join of send/main.rs: one task per pair, outcomes
collected in spawn order (the join loop awaits every handle). -/
def runTasks (net : Nat → Transaction → Nat × Except String String)
    (recent : Hash) : Nat → List TransferPair → List TaskResult
  | _, [] => []
  | k, p :: ps => taskResult net recent k p :: runTasks net recent (k + 1) ps

/-- Ordering used on outcomes: larger duration first (the source sorts by
key Reverse(duration)). -/
def byDurationDesc (a b : TaskResult) : Prop :=
  b.duration ≤ a.duration

instance : DecidableRel byDurationDesc :=
  fun a b => Nat.decLe b.duration a.duration

instance : IsTotal TaskResult byDurationDesc :=
  ⟨fun a b => Nat.le_total b.duration a.duration⟩

instance : IsTrans TaskResult byDurationDesc :=
  ⟨fun _ _ _ hab hbc => Nat.le_trans hbc hab⟩

/-- `results.sort_unstable_by_key(Reverse(duration))` of send/main.rs line
109, modelled by a sort over the duration-descending order (Rust's unstable
sort leaves tie order unspecified; any sorted permutation refines it). -/
def sortByDurDesc (l : List TaskResult) : List TaskResult :=
  List.insertionSort byDurationDesc l

/-- main of send/main.rs from the blockhash fetch on: fetch one shared
recent blockhash (aborting everything if that fails, before any task is
spawned), run one task per pair, join all, and report the total wall-clock
duration (an oracle, measured at the join barrier) alongside the outcomes
sorted by duration descending. -/
def sendAll (fetch : Except String Hash)
    (net : Nat → Transaction → Nat × Except String String)
    (pairs : List TransferPair) (total : Nat) :
    Except String (Nat × List TaskResult) :=
  match fetch with
  | .error e => .error e
  | .ok recent => .ok (total, sortByDurDesc (runTasks net recent 0 pairs))

/-! ### Deposit contract (src/deposit_contract.rs) -/

/-- Modulus of u64 lamports arithmetic. -/
def U64_MOD : Nat := 2 ^ 64

/-- The two lamport balances touched by withdraw. -/
structure DepositState where
  vault_lamports : Nat
  user_lamports : Nat
deriving DecidableEq

/-- The program's error enum. -/
inductive VaultError
  | InsufficientFunds
deriving DecidableEq

/-- The withdraw handler body (deposit_contract.rs lines 33-49):
`require!(vault_lamports >= amount, VaultError::InsufficientFunds)`, then
vault -= amount and user += amount on u64 lamports. The subtraction is
guarded by the require, so plain Nat subtraction is exact; the addition
wraps at 2^64 as u64 addition does. -/
def withdraw (st : DepositState) (amount : Nat) : Except VaultError DepositState :=
  if st.vault_lamports ≥ amount then
    .ok ⟨st.vault_lamports - amount, (st.user_lamports + amount) % U64_MOD⟩
  else
    .error .InsufficientFunds

/-- Withdraw as executed by the runtime: an Err from the handler leaves both
balances untouched (the handler errors before any mutation). -/
def withdraw_exec (st : DepositState) (amount : Nat) :
    DepositState × Option VaultError :=
  match withdraw st amount with
  | .ok st' => (st', none)
  | .error er => (st, some er)

/-- The accounts of the Withdraw context: the vault account (its address,
stored owner and lamports) and the user account (key, lamports, signer
flag). -/
structure WithdrawAccounts where
  vault_address : Pubkey
  vault_owner : Pubkey
  vault_lamports : Nat
  user_key : Pubkey
  user_lamports : Nat
  user_is_signer : Bool
deriving DecidableEq

/-- Errors surfaced by the withdraw instruction: an Anchor account
validation failure or the handler's own error. -/
inductive WithdrawError
  | missingSignature
  | constraintSeeds
  | constraintOwner
  | vaultError (e : VaultError)
deriving DecidableEq

/-- Anchor account validation for Withdraw (deposit_contract.rs lines
82-94): user must have signed, the vault must be the PDA derived from
seeds [b"vault", user.key()] (derivation kept abstract as `pda`), and
`constraint = vault.owner == user.key()`. Returns the first failure. -/
def validate_withdraw (pda : Pubkey → Pubkey) (a : WithdrawAccounts) :
    Option WithdrawError :=
  if a.user_is_signer = false then some .missingSignature
  else if a.vault_address ≠ pda a.user_key then some .constraintSeeds
  else if a.vault_owner ≠ a.user_key then some .constraintOwner
  else none

/-- The full withdraw instruction: account validation runs first and, only
when it passes, the handler body; any error leaves the balances unchanged. -/
def withdraw_ix (pda : Pubkey → Pubkey) (a : WithdrawAccounts)
    (amount : Nat) : WithdrawAccounts × Option WithdrawError :=
  match validate_withdraw pda a with
  | some er => (a, some er)
  | none =>
    match withdraw ⟨a.vault_lamports, a.user_lamports⟩ amount with
    | .ok st' =>
      ({ a with vault_lamports := st'.vault_lamports,
                user_lamports := st'.user_lamports }, none)
    | .error er => (a, some (.vaultError er))

/-! ### Lemmas about the dispatch loop -/

theorem runLoop_cons_err (P : String → Option Hash) (e : String)
    (rest : List FeedItem) :
    runLoop P (.err e :: rest) = ⟨[], 0, .stoppedStreamError e⟩ := rfl

theorem runLoop_cons_block_hit (P : String → Option Hash) (b : BlockMeta)
    (rest : List FeedItem) (h : Hash) (hd : should_dispatch b = true)
    (hh : P b.blockhash = some h) :
    runLoop P (okBlock b :: rest)
      = ⟨(b, h) :: (runLoop P rest).dispatches, (runLoop P rest).evals + 1,
         (runLoop P rest).status⟩ := by
  simp [okBlock, runLoop, hd, hh]

theorem runLoop_cons_block_miss (P : String → Option Hash) (b : BlockMeta)
    (rest : List FeedItem) (hd : should_dispatch b = false) :
    runLoop P (okBlock b :: rest)
      = ⟨(runLoop P rest).dispatches, (runLoop P rest).evals + 1,
         (runLoop P rest).status⟩ := by
  simp [okBlock, runLoop, hd]

theorem runLoop_congr_tail (P : String → Option Hash) (pre t1 t2 : List FeedItem)
    (h : runLoop P t1 = runLoop P t2) :
    runLoop P (pre ++ t1) = runLoop P (pre ++ t2) := by
  induction pre with
  | nil => simpa using h
  | cons item rest ih =>
    cases item with
    | err e => simp [runLoop]
    | ok msg =>
      obtain ⟨u⟩ := msg
      cases u with
      | none => simpa [runLoop] using ih
      | some k =>
        cases k with
        | other => simpa [runLoop] using ih
        | blockMeta b =>
          by_cases hd : should_dispatch b
          · cases hp : P b.blockhash with
            | none => simp [runLoop, hd, hp]
            | some hsh => simp [runLoop, hd, hp, ih]
          · simp [runLoop, hd, ih]

/-- Running the loop over a prefix of parseable block events followed by an
arbitrary tail: each prefix event costs one predicate evaluation, the
qualifying ones are dispatched in order, and the loop then continues into
the tail. -/
theorem runLoop_okBlocks_append (P : String → Option Hash)
    (events : List BlockMeta) (tail : List FeedItem)
    (hP : ∀ b ∈ events, (P b.blockhash).isSome = true) :
    (runLoop P (events.map okBlock ++ tail)).dispatches.map Prod.fst
        = events.filter should_dispatch
            ++ (runLoop P tail).dispatches.map Prod.fst
    ∧ (runLoop P (events.map okBlock ++ tail)).evals
        = events.length + (runLoop P tail).evals
    ∧ (runLoop P (events.map okBlock ++ tail)).status = (runLoop P tail).status := by
  induction events with
  | nil => simp
  | cons b bs ih =>
    have hb := hP b (List.mem_cons_self _ _)
    obtain ⟨h, hh⟩ := Option.isSome_iff_exists.mp hb
    have ih' := ih (fun x hx => hP x (List.mem_cons_of_mem _ hx))
    have h1 := ih'.1
    have h2 := ih'.2.1
    have h3 := ih'.2.2
    by_cases hd : should_dispatch b
    · have hd' : should_dispatch b = true := hd
      rw [List.map_cons, List.cons_append, runLoop_cons_block_hit P b _ h hd' hh]
      refine ⟨?_, ?_, ?_⟩
      · simp [List.filter_cons, hd', h1]
      · dsimp only
        simp only [List.length_cons]
        omega
      · exact h3
    · have hd' : should_dispatch b = false := by simpa using hd
      rw [List.map_cons, List.cons_append, runLoop_cons_block_miss P b _ hd']
      refine ⟨?_, ?_, ?_⟩
      · simp [List.filter_cons, hd', h1]
      · dsimp only
        simp only [List.length_cons]
        omega
      · exact h3

theorem spawnOutcomes_length (s r : Pubkey) (l : Nat)
    (F : Nat → Except String Hash) (S : Nat → Transaction → Except String String)
    (k : Nat) (ds : List (BlockMeta × Hash)) :
    (spawnOutcomes s r l F S k ds).length = ds.length := by
  induction ds generalizing k with
  | nil => rfl
  | cons d ds ih => simp [spawnOutcomes, ih]

theorem spawnOutcomes_getElem (s r : Pubkey) (l : Nat)
    (F : Nat → Except String Hash) (S : Nat → Transaction → Except String String)
    (k : Nat) (ds : List (BlockMeta × Hash)) (i : Nat) :
    (spawnOutcomes s r l F S k ds)[i]?
      = ds[i]?.map (fun d => transfer s r l (F (k + i)) (S (k + i)) d.2) := by
  induction ds generalizing k i with
  | nil => simp [spawnOutcomes]
  | cons d ds ih =>
    cases i with
    | zero => simp [spawnOutcomes]
    | succ n =>
      have hkn : k + 1 + n = k + (n + 1) := by omega
      simpa [spawnOutcomes, hkn] using ih (k + 1) n

/-! ### Claim theorems: stream dispatcher -/

/-- C1: the trigger predicate is a pure total function of the block event,
true exactly when the slot is congruent to 5 mod 10; in particular true at
slots 5, 15, 10005 and false at 0, 3, 10. -/
theorem trigger_predicate_iff :
    (∀ b : BlockMeta, should_dispatch b = true ↔ b.slot % 10 = 5)
    ∧ should_dispatch ⟨5, "h5"⟩ = true
    ∧ should_dispatch ⟨15, "h15"⟩ = true
    ∧ should_dispatch ⟨10005, "h10005"⟩ = true
    ∧ should_dispatch ⟨0, "h0"⟩ = false
    ∧ should_dispatch ⟨3, "h3"⟩ = false
    ∧ should_dispatch ⟨10, "h10"⟩ = false := by
  refine ⟨fun b => ?_, rfl, rfl, rfl, rfl, rfl, rfl⟩
  simp [should_dispatch]

/-- C2: over any feed of decodable block events, the coordinator initiates
exactly one dispatch per event satisfying the trigger predicate and none
for the others, in feed-delivery order; every event costs exactly one
predicate evaluation and the loop ends cleanly. -/
theorem dispatches_are_filtered_events (P : String → Option Hash)
    (events : List BlockMeta)
    (hP : ∀ b ∈ events, (P b.blockhash).isSome = true) :
    (runLoop P (events.map okBlock)).dispatches.map Prod.fst
        = events.filter should_dispatch
    ∧ (runLoop P (events.map okBlock)).evals = events.length
    ∧ (runLoop P (events.map okBlock)).status = .finished := by
  have h := runLoop_okBlocks_append P events [] hP
  simpa [runLoop] using h

/-- C2 witness: slots [3, 5, 10, 15, 25] produce exactly the three
dispatches for slots 5, 15, 25, in that order, with five predicate
evaluations. -/
theorem dispatches_are_filtered_events_witness :
    (runLoop (fun s => some s)
        ([⟨3, "a"⟩, ⟨5, "b"⟩, ⟨10, "c"⟩, ⟨15, "d"⟩,
          (⟨25, "e"⟩ : BlockMeta)].map okBlock)).dispatches.map Prod.fst
      = [⟨5, "b"⟩, ⟨15, "d"⟩, ⟨25, "e"⟩]
    ∧ (runLoop (fun s => some s)
        ([⟨3, "a"⟩, ⟨5, "b"⟩, ⟨10, "c"⟩, ⟨15, "d"⟩,
          (⟨25, "e"⟩ : BlockMeta)].map okBlock)).evals = 5 := by
  have h := dispatches_are_filtered_events (fun s => some s)
      [⟨3, "a"⟩, ⟨5, "b"⟩, ⟨10, "c"⟩, ⟨15, "d"⟩, ⟨25, "e"⟩]
      (fun b _ => rfl)
  exact ⟨h.1.trans (by decide), h.2.1⟩

/-- C5: a stream-level error after K valid events stops the loop with
exactly K predicate evaluations, a terminal stopped state carrying the
error, no further feed reads (the items after the error are never looked
at), and the dispatches initiated before the error are exactly the
qualifying prefix events; the loop result does not depend on the spawned
tasks, and every initiated dispatch still gets its own outcome. -/
theorem stream_error_stops_loop (P : String → Option Hash)
    (F : Nat → Except String Hash) (S : Nat → Transaction → Except String String)
    (s r : Pubkey) (l : Nat) (events : List BlockMeta) (e : String)
    (rest : List FeedItem)
    (hP : ∀ b ∈ events, (P b.blockhash).isSome = true) :
    (runLoop P (events.map okBlock ++ .err e :: rest)).evals = events.length
    ∧ (runLoop P (events.map okBlock ++ .err e :: rest)).status
        = .stoppedStreamError e
    ∧ runLoop P (events.map okBlock ++ .err e :: rest)
        = runLoop P (events.map okBlock ++ [.err e])
    ∧ (runLoop P (events.map okBlock ++ .err e :: rest)).dispatches.map Prod.fst
        = events.filter should_dispatch
    ∧ (runSystem P F S s r l (events.map okBlock ++ .err e :: rest)).1
        = runLoop P (events.map okBlock ++ .err e :: rest)
    ∧ (runSystem P F S s r l (events.map okBlock ++ .err e :: rest)).2.length
        = (runLoop P (events.map okBlock ++ .err e :: rest)).dispatches.length := by
  have h := runLoop_okBlocks_append P events (.err e :: rest) hP
  refine ⟨?_, ?_, ?_, ?_, rfl, ?_⟩
  · simpa [runLoop_cons_err] using h.2.1
  · simpa [runLoop_cons_err] using h.2.2
  · exact runLoop_congr_tail P (events.map okBlock) _ _ rfl
  · simpa [runLoop_cons_err] using h.1
  · exact spawnOutcomes_length s r l F S 0 _

/-- C5 witness: two valid events (slots 5 and 12) followed by a stream
error and one more item: two predicate evaluations, terminal stopped
state, one dispatch (slot 5), one task outcome. -/
theorem stream_error_stops_loop_witness :
    (runLoop (fun s => some s)
        ([⟨5, "a"⟩, (⟨12, "b"⟩ : BlockMeta)].map okBlock
          ++ .err ("bad") :: [okBlock ⟨25, "c"⟩])).evals = 2
    ∧ (runLoop (fun s => some s)
        ([⟨5, "a"⟩, (⟨12, "b"⟩ : BlockMeta)].map okBlock
          ++ .err ("bad") :: [okBlock ⟨25, "c"⟩])).status
        = .stoppedStreamError ("bad")
    ∧ runLoop (fun s => some s)
        ([⟨5, "a"⟩, (⟨12, "b"⟩ : BlockMeta)].map okBlock
          ++ .err ("bad") :: [okBlock ⟨25, "c"⟩])
        = runLoop (fun s => some s)
            ([⟨5, "a"⟩, (⟨12, "b"⟩ : BlockMeta)].map okBlock ++ [.err ("bad")]) := by
  have h := stream_error_stops_loop (fun s => some s)
      (fun _ => .ok ("h")) (fun _ _ => .ok ("sig")) 1 2 30
      [⟨5, "a"⟩, ⟨12, "b"⟩] "bad" [okBlock ⟨25, "c"⟩] (fun b _ => rfl)
  exact ⟨h.1, h.2.1, h.2.2.1⟩

/-- C7: a failed per-invocation blockhash fetch aborts only that one
submission (its outcome records the fetch failure and nothing is sent),
never changes the coordinator's loop result, and never affects a sibling
invocation: any oracle change confined to invocation i leaves every other
invocation's outcome unchanged. -/
theorem stream_fetch_failure_isolated (P : String → Option Hash)
    (F F' : Nat → Except String Hash)
    (S S' : Nat → Transaction → Except String String)
    (s r : Pubkey) (l : Nat) (items : List FeedItem) (i j : Nat) (e : String)
    (hi : i < (runLoop P items).dispatches.length)
    (hf : F i = .error e)
    (hagF : ∀ k, k ≠ i → F' k = F k)
    (hagS : ∀ k, k ≠ i → S' k = S k)
    (hij : j ≠ i) :
    (runSystem P F S s r l items).1 = runLoop P items
    ∧ (runSystem P F S s r l items).2[i]? = some (.fetchFailed e)
    ∧ (runSystem P F' S' s r l items).2[j]? = (runSystem P F S s r l items).2[j]? := by
  refine ⟨rfl, ?_, ?_⟩
  · show (spawnOutcomes s r l F S 0 (runLoop P items).dispatches)[i]?
        = some (.fetchFailed e)
    rw [spawnOutcomes_getElem, List.getElem?_eq_getElem hi]
    simp [transfer, hf]
  · show (spawnOutcomes s r l F' S' 0 (runLoop P items).dispatches)[j]?
        = (spawnOutcomes s r l F S 0 (runLoop P items).dispatches)[j]?
    rw [spawnOutcomes_getElem, spawnOutcomes_getElem]
    simp only [Nat.zero_add]
    rw [hagF j hij, hagS j hij]

/-- C7 witness: a feed dispatching slots 5 and 15; invocation 0's fetch
fails and its outcome records the failure, while invocation 1's outcome is
the same whether invocation 0's oracles fail or succeed. -/
theorem stream_fetch_failure_isolated_witness :
    (runSystem (fun s => some s)
        (fun k => if k = 0 then .error ("boom") else .ok ("h2"))
        (fun _ _ => .ok ("sig")) 1 2 30
        [okBlock ⟨5, "b5"⟩, okBlock ⟨15, "b15"⟩]).2[0]?
      = some (.fetchFailed ("boom"))
    ∧ (runSystem (fun s => some s)
        (fun k => if k = 0 then .ok ("fresh") else .ok ("h2"))
        (fun _ _ => .ok ("sig")) 1 2 30
        [okBlock ⟨5, "b5"⟩, okBlock ⟨15, "b15"⟩]).2[1]?
      = (runSystem (fun s => some s)
        (fun k => if k = 0 then .error ("boom") else .ok ("h2"))
        (fun _ _ => .ok ("sig")) 1 2 30
        [okBlock ⟨5, "b5"⟩, okBlock ⟨15, "b15"⟩]).2[1]? := by
  have h := stream_fetch_failure_isolated (fun s => some s)
      (fun k => if k = 0 then .error ("boom") else .ok ("h2"))
      (fun k => if k = 0 then .ok ("fresh") else .ok ("h2"))
      (fun _ _ => .ok ("sig")) (fun _ _ => .ok ("sig"))
      1 2 30 [okBlock ⟨5, "b5"⟩, okBlock ⟨15, "b15"⟩] 0 1 ("boom")
      (by decide) rfl (fun k hk => by simp [hk]) (fun k _ => rfl) (by decide)
  exact ⟨h.2.1, h.2.2⟩

/-! ### Lemmas about the batch sender -/

theorem runTasks_length (net : Nat → Transaction → Nat × Except String String)
    (recent : Hash) (k : Nat) (ps : List TransferPair) :
    (runTasks net recent k ps).length = ps.length := by
  induction ps generalizing k with
  | nil => rfl
  | cons p ps ih => simp [runTasks, ih]

theorem runTasks_getElem (net : Nat → Transaction → Nat × Except String String)
    (recent : Hash) (k : Nat) (ps : List TransferPair) (i : Nat) :
    (runTasks net recent k ps)[i]? = ps[i]?.map (taskResult net recent (k + i)) := by
  induction ps generalizing k i with
  | nil => simp [runTasks]
  | cons p ps ih =>
    cases i with
    | zero => simp [runTasks]
    | succ n =>
      have hkn : k + 1 + n = k + (n + 1) := by omega
      simpa [runTasks, hkn] using ih (k + 1) n

theorem runTasks_map_sender (net : Nat → Transaction → Nat × Except String String)
    (recent : Hash) (k : Nat) (ps : List TransferPair) :
    (runTasks net recent k ps).map TaskResult.sender
      = ps.map TransferPair.sender_pubkey := by
  induction ps generalizing k with
  | nil => rfl
  | cons p ps ih => simp [runTasks, taskResult, ih]

/-! ### Claim theorems: batch sender -/

/-- C3: send_all over N intents spawns one task per intent and returns
exactly N outcomes — a permutation of the per-intent task results, whose
senders are exactly the intents' public keys in order; each intent is
submitted by exactly one task (the k-th outcome before sorting comes from
the k-th intent alone), with no retry anywhere in the definition. -/
theorem batch_one_outcome_per_intent (recent : Hash)
    (net : Nat → Transaction → Nat × Except String String)
    (pairs : List TransferPair) (total : Nat) :
    sendAll (.ok recent) net pairs total
        = .ok (total, sortByDurDesc (runTasks net recent 0 pairs))
    ∧ (sortByDurDesc (runTasks net recent 0 pairs)).length = pairs.length
    ∧ (sortByDurDesc (runTasks net recent 0 pairs)).Perm
        (runTasks net recent 0 pairs)
    ∧ (runTasks net recent 0 pairs).map TaskResult.sender
        = pairs.map TransferPair.sender_pubkey := by
  refine ⟨rfl, ?_, List.perm_insertionSort _ _, runTasks_map_sender net recent 0 pairs⟩
  calc (sortByDurDesc (runTasks net recent 0 pairs)).length
      = (runTasks net recent 0 pairs).length :=
        (List.perm_insertionSort _ _).length_eq
    _ = pairs.length := runTasks_length net recent 0 pairs

/-- C4: the outcome sequence is sorted by elapsed duration descending
(every adjacent pair is non-increasing), the total wall-clock duration of
the batch is returned alongside; simulated durations 30, 10, 20 come back
in order 30, 20, 10. -/
theorem batch_outcomes_sorted_desc (recent : Hash)
    (net : Nat → Transaction → Nat × Except String String)
    (pairs : List TransferPair) (total : Nat) (i : Nat)
    (hi : i + 1 < (sortByDurDesc (runTasks net recent 0 pairs)).length) :
    ((sortByDurDesc (runTasks net recent 0 pairs)).get ⟨i + 1, hi⟩).duration
      ≤ ((sortByDurDesc (runTasks net recent 0 pairs)).get
          ⟨i, Nat.lt_of_succ_lt hi⟩).duration
    ∧ sendAll (.ok recent) net pairs total
        = .ok (total, sortByDurDesc (runTasks net recent 0 pairs))
    ∧ (sortByDurDesc (runTasks (fun k _ =>
          (if k = 0 then 30 else if k = 1 then 10 else 20, Except.ok ("sig")))
          ("hx") 0 [⟨1, 2, 100⟩, ⟨3, 4, 100⟩, ⟨5, 6, 100⟩])).map TaskResult.duration
        = [30, 20, 10] := by
  refine ⟨?_, rfl, by decide⟩
  have hs := List.sorted_insertionSort byDurationDesc (runTasks net recent 0 pairs)
  exact hs.rel_get_of_lt (Nat.lt_succ_self i)

/-- C4 witness: on the batch with simulated durations 30, 10, 20, the
outcome at index 1 is no slower-ranked than the one at index 0. -/
theorem batch_outcomes_sorted_desc_witness :
    ((sortByDurDesc (runTasks (fun k _ =>
        (if k = 0 then 30 else if k = 1 then 10 else 20, Except.ok ("sig")))
        ("hx") 0 [⟨1, 2, 100⟩, ⟨3, 4, 100⟩, ⟨5, 6, 100⟩])).get ⟨1, by decide⟩).duration
      ≤ ((sortByDurDesc (runTasks (fun k _ =>
        (if k = 0 then 30 else if k = 1 then 10 else 20, Except.ok ("sig")))
        ("hx") 0 [⟨1, 2, 100⟩, ⟨3, 4, 100⟩, ⟨5, 6, 100⟩])).get ⟨0, by decide⟩).duration :=
  (batch_outcomes_sorted_desc ("hx")
    (fun k _ => (if k = 0 then 30 else if k = 1 then 10 else 20, Except.ok ("sig")))
    [⟨1, 2, 100⟩, ⟨3, 4, 100⟩, ⟨5, 6, 100⟩] 0 0 (by decide)).1

/-- C6: a failing submission among N is captured as data in that intent's
own outcome: the barrier still returns Ok, the failing task's outcome
carries the error, every sibling task's outcome is still present, and the
batch still reports exactly N outcomes. -/
theorem batch_single_failure_isolated (recent : Hash)
    (net : Nat → Transaction → Nat × Except String String)
    (pairs : List TransferPair) (total : Nat) (i j : Nat) (e : String)
    (hi : i < pairs.length) (hj : j < pairs.length) (hij : j ≠ i)
    (he : (net i (mkTx (pairs.get ⟨i, hi⟩) recent)).2 = .error e) :
    (sendAll (.ok recent) net pairs total).isOk = true
    ∧ taskResult net recent i (pairs.get ⟨i, hi⟩)
        ∈ sortByDurDesc (runTasks net recent 0 pairs)
    ∧ (taskResult net recent i (pairs.get ⟨i, hi⟩)).signature = .error e
    ∧ taskResult net recent j (pairs.get ⟨j, hj⟩)
        ∈ sortByDurDesc (runTasks net recent 0 pairs)
    ∧ (sortByDurDesc (runTasks net recent 0 pairs)).length = pairs.length := by
  have hmem : ∀ (n : Nat) (hn : n < pairs.length),
      taskResult net recent n (pairs.get ⟨n, hn⟩)
        ∈ sortByDurDesc (runTasks net recent 0 pairs) := by
    intro n hn
    have hg : (runTasks net recent 0 pairs)[n]?
        = some (taskResult net recent n (pairs.get ⟨n, hn⟩)) := by
      rw [runTasks_getElem, List.getElem?_eq_getElem hn]
      simp
    exact ((List.perm_insertionSort byDurationDesc _).mem_iff).mpr
      (List.getElem?_mem hg)
  refine ⟨rfl, hmem i hi, ?_, hmem j hj, ?_⟩
  · exact he
  · calc (sortByDurDesc (runTasks net recent 0 pairs)).length
        = (runTasks net recent 0 pairs).length :=
          (List.perm_insertionSort _ _).length_eq
      _ = pairs.length := runTasks_length net recent 0 pairs

/-- C6 witness: two intents, the first one's submission fails; the barrier
returns Ok, both outcomes are reported, the first carrying the failure. -/
theorem batch_single_failure_isolated_witness :
    (sendAll (.ok ("h")) (fun k _ => (5, if k = 0 then .error ("fail") else .ok ("sig")))
        [⟨1, 2, 10⟩, ⟨3, 4, 20⟩] 7).isOk = true
    ∧ taskResult (fun k _ => (5, if k = 0 then .error ("fail") else .ok ("sig")))
        ("h") 0 ([⟨1, 2, 10⟩, (⟨3, 4, 20⟩ : TransferPair)].get ⟨0, by decide⟩)
        ∈ sortByDurDesc (runTasks
            (fun k _ => (5, if k = 0 then .error ("fail") else .ok ("sig")))
            ("h") 0 [⟨1, 2, 10⟩, ⟨3, 4, 20⟩])
    ∧ (taskResult (fun k _ => (5, if k = 0 then .error ("fail") else .ok ("sig")))
        ("h") 0 ([⟨1, 2, 10⟩, (⟨3, 4, 20⟩ : TransferPair)].get ⟨0, by decide⟩)).signature
        = .error ("fail")
    ∧ taskResult (fun k _ => (5, if k = 0 then .error ("fail") else .ok ("sig")))
        ("h") 1 ([⟨1, 2, 10⟩, (⟨3, 4, 20⟩ : TransferPair)].get ⟨1, by decide⟩)
        ∈ sortByDurDesc (runTasks
            (fun k _ => (5, if k = 0 then .error ("fail") else .ok ("sig")))
            ("h") 0 [⟨1, 2, 10⟩, ⟨3, 4, 20⟩])
    ∧ (sortByDurDesc (runTasks
        (fun k _ => (5, if k = 0 then .error ("fail") else .ok ("sig")))
        ("h") 0 [⟨1, 2, 10⟩, ⟨3, 4, 20⟩])).length = 2 :=
  batch_single_failure_isolated ("h")
    (fun k _ => (5, if k = 0 then .error ("fail") else .ok ("sig")))
    [⟨1, 2, 10⟩, ⟨3, 4, 20⟩] 7 0 1 ("fail") (by decide) (by decide) (by decide) rfl

/-- C8: the batch fetches the reference value once, up front — if that
fetch fails nothing is spawned and the whole run aborts — and every batch
transaction is built with that one shared hash; the stream-case submitter
instead builds each transaction from its own per-invocation fetched hash
(never from the triggering block's hash). -/
theorem blockhash_fetch_discipline (recent : Hash) (e : String)
    (net : Nat → Transaction → Nat × Except String String)
    (pairs : List TransferPair) (total : Nat) (k : Nat)
    (s r : Pubkey) (l : Nat) (h bh : Hash)
    (send : Transaction → Except String String)
    (hk : k < pairs.length) :
    sendAll (.error e) net pairs total = .error e
    ∧ (runTasks net recent 0 pairs)[k]?
        = some (taskResult net recent k (pairs.get ⟨k, hk⟩))
    ∧ (mkTx (pairs.get ⟨k, hk⟩) recent).recent_blockhash = recent
    ∧ transfer s r l (.ok h) send bh
        = .sent ⟨s, r, l, s, h⟩ (send ⟨s, r, l, s, h⟩)
    ∧ (⟨s, r, l, s, h⟩ : Transaction).recent_blockhash = h := by
  refine ⟨rfl, ?_, rfl, rfl, rfl⟩
  rw [runTasks_getElem, List.getElem?_eq_getElem hk]
  simp

/-- C8 witness: a failed up-front fetch aborts the batch with no task run;
a batch task's transaction carries the shared hash; a stream invocation's
transaction carries its own freshly fetched hash, not the block's. -/
theorem blockhash_fetch_discipline_witness :
    sendAll (.error ("no rpc")) (fun _ _ => (1, Except.ok ("s"))) [⟨1, 2, 10⟩] 9
        = .error ("no rpc")
    ∧ (runTasks (fun _ _ => (1, Except.ok ("s"))) ("hh") 0 [⟨1, 2, 10⟩])[0]?
        = some (taskResult (fun _ _ => (1, Except.ok ("s"))) ("hh") 0
            ([(⟨1, 2, 10⟩ : TransferPair)].get ⟨0, by decide⟩))
    ∧ (mkTx ([(⟨1, 2, 10⟩ : TransferPair)].get ⟨0, by decide⟩) ("hh")).recent_blockhash
        = "hh"
    ∧ transfer 1 2 10 (.ok ("fresh")) (fun _ => Except.ok ("sig")) ("evh")
        = .sent ⟨1, 2, 10, 1, "fresh"⟩
            ((fun _ => Except.ok ("sig")) (⟨1, 2, 10, 1, "fresh"⟩ : Transaction))
    ∧ (⟨1, 2, 10, 1, "fresh"⟩ : Transaction).recent_blockhash = "fresh" :=
  blockhash_fetch_discipline ("hh") ("no rpc") (fun _ _ => (1, Except.ok ("s")))
    [⟨1, 2, 10⟩] 9 0 1 2 10 ("fresh") ("evh") (fun _ => Except.ok ("sig")) (by decide)

/-! ### Claim theorems: deposit contract -/

/-- C9: withdraw returns InsufficientFunds exactly when the amount exceeds
the vault balance, and then changes neither balance; otherwise it succeeds,
the vault loses exactly the amount (no underflow: adding it back restores
the balance) and the user gains exactly the amount. -/
theorem withdraw_spec (st : DepositState) (amount : Nat)
    (hu : st.user_lamports + amount < U64_MOD) :
    (withdraw st amount = .error .InsufficientFunds ↔ st.vault_lamports < amount)
    ∧ (st.vault_lamports < amount →
        withdraw_exec st amount = (st, some .InsufficientFunds))
    ∧ (amount ≤ st.vault_lamports →
        withdraw_exec st amount
            = (⟨st.vault_lamports - amount, st.user_lamports + amount⟩, none)
          ∧ st.vault_lamports - amount + amount = st.vault_lamports) := by
  by_cases hc : st.vault_lamports ≥ amount
  · have hok : withdraw st amount
        = .ok ⟨st.vault_lamports - amount, st.user_lamports + amount⟩ := by
      unfold withdraw
      rw [if_pos hc, Nat.mod_eq_of_lt hu]
    refine ⟨?_, ?_, ?_⟩
    · rw [hok]
      simp
      omega
    · intro hlt
      exfalso
      omega
    · intro _
      exact ⟨by simp [withdraw_exec, hok], by omega⟩
  · have herr : withdraw st amount = .error .InsufficientFunds := by
      unfold withdraw
      rw [if_neg hc]
    refine ⟨?_, ?_, ?_⟩
    · rw [herr]
      simp
      omega
    · intro _
      simp [withdraw_exec, herr]
    · intro hle
      exfalso
      omega

/-- C9 witness: withdrawing 4 from a vault of 10 with a user at 7 yields
balances (6, 11) and no error; withdrawing 5 from a vault of 3 yields
InsufficientFunds and unchanged balances. -/
theorem withdraw_spec_witness :
    withdraw_exec ⟨10, 7⟩ 4 = (⟨6, 11⟩, none)
    ∧ withdraw_exec ⟨3, 7⟩ 5 = (⟨3, 7⟩, some .InsufficientFunds) :=
  ⟨((withdraw_spec ⟨10, 7⟩ 4 (by decide)).2.2 (by decide)).1,
    (withdraw_spec ⟨3, 7⟩ 5 (by decide)).2.1 (by decide)⟩

/-- C10: when the signing user's key differs from the owner stored in the
vault, the withdraw instruction fails account validation (whatever the PDA
derivation says) and moves no lamports: the accounts come back unchanged
with an error. -/
theorem withdraw_owner_constraint (pda : Pubkey → Pubkey)
    (a : WithdrawAccounts) (amount : Nat)
    (h : a.vault_owner ≠ a.user_key) :
    (withdraw_ix pda a amount).1 = a
    ∧ (withdraw_ix pda a amount).2.isSome = true := by
  unfold withdraw_ix validate_withdraw
  by_cases hs : a.user_is_signer = false
  · simp [hs]
  · by_cases hv : a.vault_address = pda a.user_key
    · simp [hs, hv, h]
    · simp [hs, hv]

/-- C10 witness: owner 1 stored in the vault, signing user key 2: the
instruction errors and the account balances are untouched. -/
theorem withdraw_owner_constraint_witness :
    (withdraw_ix id ⟨2, 1, 100, 2, 5, true⟩ 10).1 = ⟨2, 1, 100, 2, 5, true⟩
    ∧ (withdraw_ix id ⟨2, 1, 100, 2, 5, true⟩ 10).2.isSome = true :=
  withdraw_owner_constraint id ⟨2, 1, 100, 2, 5, true⟩ 10 (by decide)

end SolanaTest
